import Mathlib

/-!
Verification development for the task-manager bot (src/bot.py).

The shallow embedding below models the relational store (users, tasks,
task_assignments), the APScheduler job registry (one entry per scheduled
reminder job, keyed by task id), and the handlers that the claims are about:
schedule_reminder, send_reminder, notify_completion_if_all_completed,
create_task (plus the schedule_reminder call its callers make),
accept_task, complete_task, confirm_delete_task, the notification-interval
branch of edit_task_value, handle_rector_task_notification_interval, and
the registration flow (handle_contact followed by set_role's create_user).

Message delivery is modelled by an oracle deliver : Nat -> Bool saying
whether sending to a given chat id succeeds; the code wraps every send in
try/except, so a failed delivery is recorded but has no other effect.
-/

set_option maxHeartbeats 1000000

namespace TaskBot

/-- Assignment status lifecycle, from the status column of task_assignments. -/
inductive Status where
  | Pending
  | Accepted
  | Completed
deriving DecidableEq

/-- One row of the task_assignments table, composite key (task_id, user_id). -/
structure TaskAssignment where
  task_id : Nat
  user_id : Nat
  status : Status
deriving DecidableEq

/-- One row of the users table. -/
structure User where
  id : Nat
  username : String
  name : String
  surname : String
  phone_number : String
  role : String
deriving DecidableEq

/-- One row of the tasks table; the deadline is an abstract timestamp. -/
structure Task where
  id : Nat
  title : String
  description : String
  deadline : Nat
  notification_interval : Nat
deriving DecidableEq

/-- A live APScheduler reminder job, keyed by task id. -/
structure Job where
  task_id : Nat
  interval : Nat
deriving DecidableEq

/-- The relational store (comments are irrelevant to the claims). -/
structure Store where
  users : List User
  tasks : List Task
  assignments : List TaskAssignment
deriving DecidableEq

/-- The store together with the scheduler's job registry. -/
structure SysState where
  store : Store
  jobs : List Job
deriving DecidableEq

/-- session.query(Task).filter(Task.id == task_id).first() -/
def findTask (s : Store) (tid : Nat) : Option Task :=
  s.tasks.find? (fun t => t.id == tid)

/-- Whether a task row with this id exists. -/
def taskExists (st : SysState) (tid : Nat) : Bool :=
  st.store.tasks.any (fun t => t.id == tid)

/-- The assignment rows belonging to one task (task.assignments). -/
def filterTask (l : List TaskAssignment) (tid : Nat) : List TaskAssignment :=
  l.filter (fun a => a.task_id == tid)

/-- task.assignments for the task with id tid. -/
def assignmentsFor (s : Store) (tid : Nat) : List TaskAssignment :=
  filterTask s.assignments tid

/-- Whether the scheduler holds a reminder job for this task id. -/
def hasJob (st : SysState) (tid : Nat) : Bool :=
  st.jobs.any (fun j => j.task_id == tid)

/-- scheduler.remove_job wrapped in try/except: removing an absent job is a no-op. -/
def removeJob (jobs : List Job) (tid : Nat) : List Job :=
  jobs.filter (fun j => j.task_id != tid)

/-- scheduler.add_job with replace_existing=True: the old job with the same id
is cancelled first, then the new one is registered. -/
def addJob (jobs : List Job) (tid interval : Nat) : List Job :=
  removeJob jobs tid ++ [⟨tid, interval⟩]

/-- Number of registered jobs carrying a given task id. -/
def countJobs (jobs : List Job) (tid : Nat) : Nat :=
  (jobs.filter (fun j => j.task_id == tid)).length

/-- session.query(User).filter(User.role == "rector").all(), projected to ids. -/
def rectorIds (s : Store) : List Nat :=
  (s.users.filter (fun u => u.role == "rector")).map (fun u => u.id)

/-- all(assignment.status == "Completed" for assignment in ...): the bare fold
used by send_reminder; vacuously true on an empty list. -/
def allCompleted (l : List TaskAssignment) : Bool :=
  l.all (fun a => a.status == Status.Completed)

/-- The completion condition of the spec and of
notify_completion_if_all_completed: at least one assignment and every
assignment Completed. -/
def is_complete (l : List TaskAssignment) : Bool :=
  !l.isEmpty && allCompleted l

/-- schedule_reminder: add_job(send_reminder, IntervalTrigger(...),
id=reminder_task_tid, replace_existing=True). -/
def schedule_reminder (st : SysState) (task_id interval : Nat) : SysState :=
  { st with jobs := addJob st.jobs task_id interval }

/-- The outstanding assignees a reminder is attempted for:
assignments with status other than Completed, projected to user ids. -/
def outstandingIds (l : List TaskAssignment) : List Nat :=
  (l.filter (fun a => a.status != Status.Completed)).map (fun a => a.user_id)

/-- Result of one tick of send_reminder: the new system state, the chat ids a
send was attempted for, and the subset the Notifier actually delivered to. -/
structure TickResult where
  state : SysState
  attempted : List Nat
  delivered : List Nat
deriving DecidableEq

/-- send_reminder, the scheduled tick callback. If the task row is gone it
logs and returns (the job is left in place). If the bare all-completed fold is
true it removes its own job and returns. Otherwise it attempts one send per
outstanding assignee, each wrapped in try/except. -/
def send_reminder (deliver : Nat → Bool) (st : SysState) (task_id : Nat) : TickResult :=
  match findTask st.store task_id with
  | none => ⟨st, [], []⟩
  | some _ =>
    let asg := assignmentsFor st.store task_id
    if allCompleted asg then
      ⟨{ st with jobs := removeJob st.jobs task_id }, [], []⟩
    else
      ⟨st, outstandingIds asg, (outstandingIds asg).filter deliver⟩

/-- Result of notify_completion_if_all_completed: new state, rector chat ids a
completion message was attempted for, and those it reached. -/
structure NotifyResult where
  state : SysState
  attempted : List Nat
  delivered : List Nat
deriving DecidableEq

/-- notify_completion_if_all_completed: returns early when the task row is
gone or it has no assignments; when every assignment is Completed it removes
the reminder job (try/except) and attempts one send per rector. -/
def notify_completion_if_all_completed (deliver : Nat → Bool) (st : SysState) (task_id : Nat) :
    NotifyResult :=
  match findTask st.store task_id with
  | none => ⟨st, [], []⟩
  | some _ =>
    let asg := assignmentsFor st.store task_id
    if asg.isEmpty then ⟨st, [], []⟩
    else if allCompleted asg then
      ⟨{ st with jobs := removeJob st.jobs task_id },
        rectorIds st.store, (rectorIds st.store).filter deliver⟩
    else ⟨st, [], []⟩

/-- The task id sqlite assigns on insert: one more than the largest id. -/
def foldMaxId (ts : List Task) : Nat :=
  ts.foldr (fun t m => max t.id m) 0

/-- Fresh primary key for a new task row. -/
def freshTaskId (s : Store) : Nat :=
  foldMaxId s.tasks + 1

/-- TaskAssignment(task_id=..., user_id=...) with the default status Pending. -/
def mkAssignment (task_id user_id : Nat) : TaskAssignment :=
  ⟨task_id, user_id, Status.Pending⟩

/-- create_task: insert the task row, then for each assignee id insert an
assignment only when a user row with that id exists (ids with no user are
silently skipped). Returns the store and the new task id. -/
def create_task (s : Store) (title description : String) (deadline interval : Nat)
    (assignee_ids : List Nat) : Store × Nat :=
  let tid := freshTaskId s
  let kept := assignee_ids.filter (fun i => s.users.any (fun u => u.id == i))
  ({ s with
      tasks := s.tasks ++ [⟨tid, title, description, deadline, interval⟩],
      assignments := s.assignments ++ kept.map (fun i => mkAssignment tid i) }, tid)

/-- The task-creation path of the handlers (set_assignment_method,
handle_rector_task_assignee, assign_confirm): create_task followed
unconditionally by schedule_reminder for the new task. -/
def create_task_flow (st : SysState) (title description : String) (deadline interval : Nat)
    (assignee_ids : List Nat) : SysState × Nat :=
  let p := create_task st.store title description deadline interval assignee_ids
  (schedule_reminder { st with store := p.1 } p.2 interval, p.2)

/-- Update one assignment row in place when its composite key matches. -/
def updAsg (task_id user_id : Nat) (s : Status) (a : TaskAssignment) : TaskAssignment :=
  if a.task_id == task_id && a.user_id == user_id then { a with status := s } else a

/-- assignment.status = ... ; session.commit() on the matching row. -/
def setStatus (l : List TaskAssignment) (task_id user_id : Nat) (s : Status) :
    List TaskAssignment :=
  l.map (updAsg task_id user_id s)

/-- session.query(TaskAssignment).filter_by(task_id=..., user_id=...).first() -/
def findAssignment (s : Store) (task_id user_id : Nat) : Option TaskAssignment :=
  s.assignments.find? (fun a => a.task_id == task_id && a.user_id == user_id)

inductive AcceptOutcome where
  | notAssigned
  | accepted
  | alreadyAccepted
deriving DecidableEq

/-- accept_task: Pending becomes Accepted; any other status is answered with
the task_already_accepted message and no state change. -/
def accept_task (st : SysState) (task_id user_id : Nat) : SysState × AcceptOutcome :=
  match findAssignment st.store task_id user_id with
  | none => (st, .notAssigned)
  | some a =>
    if a.status == Status.Pending then
      ({ st with store := { st.store with
          assignments := setStatus st.store.assignments task_id user_id Status.Accepted } },
        .accepted)
    else (st, .alreadyAccepted)

inductive CompleteOutcome where
  | notAssigned
  | completedNow
  | alreadyCompleted
deriving DecidableEq

/-- Result of complete_task: new state, outcome, rector ids a completion
message was attempted for, and those it reached. -/
structure CompleteResult where
  state : SysState
  outcome : CompleteOutcome
  notified : List Nat
  delivered : List Nat
deriving DecidableEq

/-- complete_task: a status other than Completed becomes Completed and
notify_completion_if_all_completed runs synchronously on the committed state;
an already Completed assignment is answered with the already-completed
message and nothing else happens. -/
def complete_task (deliver : Nat → Bool) (st : SysState) (task_id user_id : Nat) :
    CompleteResult :=
  match findAssignment st.store task_id user_id with
  | none => ⟨st, .notAssigned, [], []⟩
  | some a =>
    if a.status != Status.Completed then
      let st1 : SysState := { st with store := { st.store with
          assignments := setStatus st.store.assignments task_id user_id Status.Completed } }
      let n := notify_completion_if_all_completed deliver st1 task_id
      ⟨n.state, .completedNow, n.attempted, n.delivered⟩
    else ⟨st, .alreadyCompleted, [], []⟩

inductive DeleteOutcome where
  | notFound
  | deleted
deriving DecidableEq

/-- confirm_delete_task: remove the reminder job (try/except), then delete the
task row; the assignment rows cascade with it. -/
def confirm_delete_task (st : SysState) (task_id : Nat) : SysState × DeleteOutcome :=
  match findTask st.store task_id with
  | none => (st, .notFound)
  | some _ =>
    ({ store := { st.store with
         tasks := st.store.tasks.filter (fun t => t.id != task_id),
         assignments := st.store.assignments.filter (fun a => a.task_id != task_id) },
       jobs := removeJob st.jobs task_id }, .deleted)

/-- Python str.isdigit on the text the bot receives: non-empty and all digits. -/
def strIsDigits (s : String) : Bool :=
  !s.data.isEmpty && s.data.all Char.isDigit

/-- Python int() applied to a digit string. -/
def strToNat (s : String) : Nat :=
  s.data.foldl (fun n c => n * 10 + (c.toNat - 48)) 0

inductive EditOutcome where
  | taskNotFound
  | reprompt
  | updated
deriving DecidableEq

/-- The notification_interval branch of edit_task_value. A non-digit string or
the value zero re-prompts with no change; a positive value is stored, the old
job removed (try/except) and schedule_reminder called with the new interval. -/
def edit_task_interval (st : SysState) (task_id : Nat) (input : String) :
    SysState × EditOutcome :=
  match findTask st.store task_id with
  | none => (st, .taskNotFound)
  | some _ =>
    if !strIsDigits input then (st, .reprompt)
    else
      let v := strToNat input
      if v ≤ 0 then (st, .reprompt)
      else
        (schedule_reminder
          { st with store := { st.store with
              tasks := st.store.tasks.map
                (fun t => if t.id == task_id then { t with notification_interval := v } else t) } }
          task_id v, .updated)

/-- The conversation data accumulated while a rector creates a task; nothing
is in the store yet at this point. -/
structure PendingTask where
  title : String
  description : String
  deadline : Nat
  interval : Option Nat
deriving DecidableEq

inductive IntervalStep where
  | reprompt
  | proceed
deriving DecidableEq

/-- handle_rector_task_notification_interval: isdigit plus positivity check on
the typed interval; rejection re-prompts and changes nothing. -/
def handle_rector_task_notification_interval (p : PendingTask) (input : String) :
    PendingTask × IntervalStep :=
  if !strIsDigits input then (p, .reprompt)
  else
    let v := strToNat input
    if v ≤ 0 then (p, .reprompt)
    else ({ p with interval := some v }, .proceed)

/-- The validation both interval handlers apply: some v for a digit string
with positive value, none otherwise. -/
def parse_interval (s : String) : Option Nat :=
  if !strIsDigits s then none
  else
    let v := strToNat s
    if v ≤ 0 then none else some v

inductive ContactOutcome where
  | alreadyRegistered
  | belongsToOther
  | proceed
deriving DecidableEq

/-- handle_contact: look up the shared phone number; if its owner is the
requester the attempt is answered as already registered, if the owner differs
it is rejected as registered to another user; otherwise registration proceeds. -/
def handle_contact (s : Store) (user_id : Nat) (phone_number : String) : ContactOutcome :=
  match s.users.find? (fun u => u.phone_number == phone_number) with
  | some u => if u.id == user_id then .alreadyRegistered else .belongsToOther
  | none => .proceed

inductive RegOutcome where
  | created
  | alreadyRegistered
  | belongsToOther
deriving DecidableEq

/-- create_user: insert the new user row. -/
def create_user (s : Store) (user_id : Nat) (username name surname phone_number role : String) :
    Store :=
  { s with users := s.users ++ [⟨user_id, username, name, surname, phone_number, role⟩] }

/-- The registration flow: handle_contact gates on the phone number; on
proceed, set_role re-checks the requester id and calls create_user only for a
genuinely new user. Rejection ends the conversation with the store untouched. -/
def register_flow (s : Store) (user_id : Nat) (username name surname phone_number role : String) :
    Store × RegOutcome :=
  match handle_contact s user_id phone_number with
  | .alreadyRegistered => (s, .alreadyRegistered)
  | .belongsToOther => (s, .belongsToOther)
  | .proceed =>
    match s.users.find? (fun u => u.id == user_id) with
    | some _ => (s, .alreadyRegistered)
    | none => (create_user s user_id username name surname phone_number role, .created)

/-- The spec's reminder-job invariant: a job exists iff its task exists and
the task's completion condition is false. Phrased over the finite job and
task lists so that it is decidable on concrete states. -/
def reminderInvariant (st : SysState) : Prop :=
  (∀ j ∈ st.jobs,
      taskExists st j.task_id = true ∧ is_complete (assignmentsFor st.store j.task_id) = false) ∧
  (∀ t ∈ st.store.tasks,
      is_complete (assignmentsFor st.store t.id) = false → hasJob st t.id = true)

instance (st : SysState) : Decidable (reminderInvariant st) := by
  unfold reminderInvariant; infer_instance

/-- Referential integrity the database enforces: every assignment row points
at an existing task row. -/
def storeWf (s : Store) : Prop :=
  ∀ a ∈ s.assignments, ∃ t ∈ s.tasks, t.id = a.task_id

instance (s : Store) : Decidable (storeWf s) := by
  unfold storeWf; infer_instance

/-! ### Basic lemmas about the embedded operations -/

theorem foldMaxId_cons (x : Task) (xs : List Task) :
    foldMaxId (x :: xs) = max x.id (foldMaxId xs) := rfl

theorem mem_le_foldMaxId {ts : List Task} {t : Task} (h : t ∈ ts) : t.id ≤ foldMaxId ts := by
  induction ts with
  | nil => cases h
  | cons x xs ih =>
    rw [foldMaxId_cons]
    rcases List.mem_cons.mp h with h | h
    · subst h; exact Nat.le_max_left _ _
    · exact Nat.le_trans (ih h) (Nat.le_max_right _ _)

theorem id_ne_freshTaskId {s : Store} {t : Task} (h : t ∈ s.tasks) : t.id ≠ freshTaskId s := by
  have := mem_le_foldMaxId h
  unfold freshTaskId
  omega

theorem filterTask_append (l l' : List TaskAssignment) (tid : Nat) :
    filterTask (l ++ l') tid = filterTask l tid ++ filterTask l' tid := by
  simp [filterTask]

theorem filterTask_map_mkAssignment_ne {ids : List Nat} {f k : Nat} (h : k ≠ f) :
    filterTask (ids.map (fun i => mkAssignment f i)) k = [] := by
  induction ids with
  | nil => rfl
  | cons x xs ih =>
    simp only [List.map_cons, filterTask, List.filter_cons] at *
    simp only [mkAssignment] at *
    have : (f == k) = false := by simp [Ne.symm h]
    simp [this, ih]

theorem filterTask_map_mkAssignment_eq (ids : List Nat) (f : Nat) :
    filterTask (ids.map (fun i => mkAssignment f i)) f = ids.map (fun i => mkAssignment f i) := by
  induction ids with
  | nil => rfl
  | cons x xs ih =>
    simp only [List.map_cons, filterTask, List.filter_cons] at *
    simp [mkAssignment, ih]

theorem is_complete_map_mkAssignment (ids : List Nat) (f : Nat) :
    is_complete (ids.map (fun i => mkAssignment f i)) = false := by
  cases ids with
  | nil => rfl
  | cons x xs => simp [is_complete, allCompleted, mkAssignment]

theorem updAsg_task_id (tid uid : Nat) (s : Status) (a : TaskAssignment) :
    (updAsg tid uid s a).task_id = a.task_id := by
  unfold updAsg; split <;> rfl

theorem updAsg_user_id (tid uid : Nat) (s : Status) (a : TaskAssignment) :
    (updAsg tid uid s a).user_id = a.user_id := by
  unfold updAsg; split <;> rfl

theorem filterTask_setStatus (l : List TaskAssignment) (tid uid : Nat) (s : Status) (k : Nat) :
    filterTask (setStatus l tid uid s) k = (filterTask l k).map (updAsg tid uid s) := by
  induction l with
  | nil => rfl
  | cons a l ih =>
    simp only [setStatus, List.map_cons, filterTask, List.filter_cons] at *
    rw [updAsg_task_id]
    cases hk : (a.task_id == k) <;> simp [hk, ih]

theorem filterTask_setStatus_ne {l : List TaskAssignment} {tid uid : Nat} {s : Status} {k : Nat}
    (h : k ≠ tid) : filterTask (setStatus l tid uid s) k = filterTask l k := by
  rw [filterTask_setStatus]
  have : ∀ a ∈ filterTask l k, updAsg tid uid s a = a := by
    intro a ha
    have hk : a.task_id = k := by
      have := (List.mem_filter.mp ha).2
      simpa using this
    unfold updAsg
    have : (a.task_id == tid) = false := by simp [hk, h]
    simp [this]
  calc (filterTask l k).map (updAsg tid uid s)
      = (filterTask l k).map id := List.map_congr_left this
    _ = filterTask l k := List.map_id _

theorem find?_setStatus (l : List TaskAssignment) (tid uid : Nat) (st : Status) :
    (setStatus l tid uid st).find? (fun a => a.task_id == tid && a.user_id == uid) =
      (l.find? (fun a => a.task_id == tid && a.user_id == uid)).map (updAsg tid uid st) := by
  induction l with
  | nil => rfl
  | cons a l ih =>
    simp only [setStatus, List.map_cons, List.find?]
    rw [updAsg_task_id, updAsg_user_id]
    cases h : (a.task_id == tid && a.user_id == uid)
    · simpa [h, setStatus] using ih
    · simp [h]

theorem mem_removeJob {jobs : List Job} {tid : Nat} {j : Job} :
    j ∈ removeJob jobs tid ↔ j ∈ jobs ∧ j.task_id ≠ tid := by
  simp [removeJob, List.mem_filter]

theorem hasJob_iff {st : SysState} {tid : Nat} :
    hasJob st tid = true ↔ ∃ j ∈ st.jobs, j.task_id = tid := by
  simp [hasJob, List.any_eq_true]

theorem taskExists_iff {st : SysState} {tid : Nat} :
    taskExists st tid = true ↔ ∃ t ∈ st.store.tasks, t.id = tid := by
  simp [taskExists, List.any_eq_true]

theorem findTask_eq_none_iff {s : Store} {tid : Nat} :
    findTask s tid = none ↔ ∀ t ∈ s.tasks, t.id ≠ tid := by
  simp [findTask, List.find?_eq_none]

theorem allCompleted_eq_false_of_mem {l : List TaskAssignment} {a : TaskAssignment}
    (ha : a ∈ l) (hs : a.status ≠ Status.Completed) : allCompleted l = false := by
  cases h : allCompleted l
  · rfl
  · exact absurd (by simpa using List.all_eq_true.mp h a ha) hs

theorem is_complete_eq_false_of_mem {l : List TaskAssignment} {a : TaskAssignment}
    (ha : a ∈ l) (hs : a.status ≠ Status.Completed) : is_complete l = false := by
  simp [is_complete, allCompleted_eq_false_of_mem ha hs]

theorem mem_status_of_allCompleted {l : List TaskAssignment} {a : TaskAssignment}
    (h : allCompleted l = true) (ha : a ∈ l) : a.status = Status.Completed := by
  simpa using List.all_eq_true.mp h a ha

/-! ### Preservation of the reminder-job invariant and behavior of the operations -/
theorem reminderInvariant_create_aux (st : SysState) (hw : storeWf st.store)
    (hinv : reminderInvariant st) (T : Task) (interval : Nat) (ids : List Nat)
    (hT : T.id = freshTaskId st.store) :
    reminderInvariant
      { store := { users := st.store.users,
                   tasks := st.store.tasks ++ [T],
                   assignments := st.store.assignments ++
                     ids.map (fun i => mkAssignment (freshTaskId st.store) i) },
        jobs := removeJob st.jobs (freshTaskId st.store) ++
          [{ task_id := freshTaskId st.store, interval := interval }] } := by
  obtain ⟨hjob, htask⟩ := hinv
  have hfresh0 : filterTask st.store.assignments (freshTaskId st.store) = [] := by
    cases hF : filterTask st.store.assignments (freshTaskId st.store) with
    | nil => rfl
    | cons a rest =>
      have ha : a ∈ filterTask st.store.assignments (freshTaskId st.store) := by
        rw [hF]; exact List.mem_cons_self _ _
      simp only [filterTask] at ha
      rw [List.mem_filter] at ha
      obtain ⟨t, ht, hteq⟩ := hw a ha.1
      have hid : a.task_id = freshTaskId st.store := by simpa using ha.2
      exact absurd (hteq.trans hid) (id_ne_freshTaskId ht)
  constructor
  · intro j hj
    rcases List.mem_append.mp hj with hjL | hjR
    · obtain ⟨hjm, hjne⟩ := mem_removeJob.mp hjL
      obtain ⟨hex, hinc⟩ := hjob j hjm
      constructor
      · rw [taskExists_iff]
        obtain ⟨t, htm, hteq⟩ := taskExists_iff.mp hex
        exact ⟨t, List.mem_append_left _ htm, hteq⟩
      · show is_complete (filterTask (st.store.assignments ++
              ids.map (fun i => mkAssignment (freshTaskId st.store) i)) j.task_id) = false
        rw [filterTask_append, filterTask_map_mkAssignment_ne hjne, List.append_nil]
        exact hinc
    · have hjeq : j = { task_id := freshTaskId st.store, interval := interval } := by
        simpa using hjR
      subst hjeq
      constructor
      · rw [taskExists_iff]
        exact ⟨T, List.mem_append_right _ (List.mem_cons_self _ _), hT⟩
      · show is_complete (filterTask (st.store.assignments ++
              ids.map (fun i => mkAssignment (freshTaskId st.store) i)) (freshTaskId st.store)) = false
        rw [filterTask_append, hfresh0, List.nil_append, filterTask_map_mkAssignment_eq]
        exact is_complete_map_mkAssignment ids (freshTaskId st.store)
  · intro t ht
    rcases List.mem_append.mp ht with htL | htR
    · have hne : t.id ≠ freshTaskId st.store := id_ne_freshTaskId htL
      show is_complete (filterTask (st.store.assignments ++
          ids.map (fun i => mkAssignment (freshTaskId st.store) i)) t.id) = false →
        hasJob _ t.id = true
      rw [filterTask_append, filterTask_map_mkAssignment_ne hne, List.append_nil]
      intro hincomp
      have hjb := htask t htL hincomp
      obtain ⟨j, hjm, hjeq⟩ := hasJob_iff.mp hjb
      rw [hasJob_iff]
      refine ⟨j, List.mem_append_left _ (mem_removeJob.mpr ⟨hjm, ?_⟩), hjeq⟩
      rw [hjeq]; exact hne
    · have hteq : t = T := by simpa using htR
      subst hteq
      intro _
      rw [hasJob_iff]
      exact ⟨{ task_id := freshTaskId st.store, interval := interval },
        List.mem_append_right _ (List.mem_cons_self _ _), hT.symm⟩

theorem reminderInvariant_create (st : SysState) (hw : storeWf st.store)
    (hinv : reminderInvariant st) (title description : String) (deadline interval : Nat)
    (ids : List Nat) :
    reminderInvariant (create_task_flow st title description deadline interval ids).1 := by
  simp only [create_task_flow, create_task, schedule_reminder, addJob]
  exact reminderInvariant_create_aux st hw hinv _ interval _ rfl

theorem notify_of_none (deliver : Nat → Bool) (st : SysState) (tid : Nat)
    (h : findTask st.store tid = none) :
    notify_completion_if_all_completed deliver st tid = ⟨st, [], []⟩ := by
  simp [notify_completion_if_all_completed, h]

theorem notify_of_isEmpty (deliver : Nat → Bool) (st : SysState) (tid : Nat) {T : Task}
    (h : findTask st.store tid = some T)
    (h2 : (assignmentsFor st.store tid).isEmpty = true) :
    notify_completion_if_all_completed deliver st tid = ⟨st, [], []⟩ := by
  simp [notify_completion_if_all_completed, h, h2]

theorem notify_of_allCompleted (deliver : Nat → Bool) (st : SysState) (tid : Nat) {T : Task}
    (h : findTask st.store tid = some T)
    (h2 : (assignmentsFor st.store tid).isEmpty = false)
    (h3 : allCompleted (assignmentsFor st.store tid) = true) :
    notify_completion_if_all_completed deliver st tid =
      ⟨{ st with jobs := removeJob st.jobs tid },
        rectorIds st.store, (rectorIds st.store).filter deliver⟩ := by
  simp [notify_completion_if_all_completed, h, h2, h3]

theorem notify_of_notAllCompleted (deliver : Nat → Bool) (st : SysState) (tid : Nat) {T : Task}
    (h : findTask st.store tid = some T)
    (h3 : allCompleted (assignmentsFor st.store tid) = false) :
    notify_completion_if_all_completed deliver st tid = ⟨st, [], []⟩ := by
  have h2 : (assignmentsFor st.store tid).isEmpty = false := by
    cases he : (assignmentsFor st.store tid).isEmpty
    · rfl
    · rw [List.isEmpty_iff] at he
      rw [he] at h3
      simp [allCompleted] at h3
  simp [notify_completion_if_all_completed, h, h2, h3]

theorem send_reminder_of_none (deliver : Nat → Bool) (st : SysState) (tid : Nat)
    (h : findTask st.store tid = none) :
    send_reminder deliver st tid = ⟨st, [], []⟩ := by
  simp [send_reminder, h]

theorem send_reminder_of_allCompleted (deliver : Nat → Bool) (st : SysState) (tid : Nat)
    {T : Task} (h : findTask st.store tid = some T)
    (h3 : allCompleted (assignmentsFor st.store tid) = true) :
    send_reminder deliver st tid = ⟨{ st with jobs := removeJob st.jobs tid }, [], []⟩ := by
  simp [send_reminder, h, h3]

theorem send_reminder_of_notAllCompleted (deliver : Nat → Bool) (st : SysState) (tid : Nat)
    {T : Task} (h : findTask st.store tid = some T)
    (h3 : allCompleted (assignmentsFor st.store tid) = false) :
    send_reminder deliver st tid =
      ⟨st, outstandingIds (assignmentsFor st.store tid),
        (outstandingIds (assignmentsFor st.store tid)).filter deliver⟩ := by
  simp [send_reminder, h, h3]

theorem reminderInvariant_accept (st : SysState) (hinv : reminderInvariant st)
    (tid uid : Nat) : reminderInvariant (accept_task st tid uid).1 := by
  obtain ⟨hjob, htask⟩ := hinv
  cases hfa : findAssignment st.store tid uid with
  | none =>
    simp only [accept_task, hfa]
    exact ⟨hjob, htask⟩
  | some a =>
    have hmem : a ∈ st.store.assignments := List.mem_of_find?_eq_some hfa
    have hpred := List.find?_some hfa
    obtain ⟨htid, huid⟩ : a.task_id = tid ∧ a.user_id = uid := by simpa using hpred
    cases hp : (a.status == Status.Pending) with
    | false =>
      simp only [accept_task, hfa, hp]
      exact ⟨hjob, htask⟩
    | true =>
      have hpend : a.status = Status.Pending := by simpa using hp
      simp only [accept_task, hfa, hp, if_true]
      have hainf : a ∈ filterTask st.store.assignments tid := by
        simp only [filterTask]
        exact List.mem_filter.mpr ⟨hmem, by simp [htid]⟩
      have hupd : updAsg tid uid Status.Accepted a = { a with status := Status.Accepted } := by
        unfold updAsg
        simp [htid, huid]
      have hwitness : ({ a with status := Status.Accepted } : TaskAssignment) ∈
          filterTask (setStatus st.store.assignments tid uid Status.Accepted) tid := by
        rw [filterTask_setStatus, ← hupd]
        exact List.mem_map_of_mem _ hainf
      have hincomp_before : is_complete (filterTask st.store.assignments tid) = false :=
        is_complete_eq_false_of_mem hainf (by rw [hpend]; simp)
      have hincomp_after :
          is_complete (filterTask (setStatus st.store.assignments tid uid Status.Accepted) tid)
            = false :=
        is_complete_eq_false_of_mem hwitness (by simp)
      constructor
      · intro j hj
        have hj' : j ∈ st.jobs := hj
        obtain ⟨hex, hinc⟩ := hjob j hj'
        refine ⟨hex, ?_⟩
        show is_complete
            (filterTask (setStatus st.store.assignments tid uid Status.Accepted) j.task_id) = false
        by_cases hk : j.task_id = tid
        · rw [hk]; exact hincomp_after
        · rw [filterTask_setStatus_ne hk]; exact hinc
      · intro t ht
        have ht' : t ∈ st.store.tasks := ht
        intro hincomp
        have hincomp' : is_complete
            (filterTask (setStatus st.store.assignments tid uid Status.Accepted) t.id) = false :=
          hincomp
        show hasJob st t.id = true
        by_cases hk : t.id = tid
        · exact htask t ht' (by rw [hk]; exact hincomp_before)
        · rw [filterTask_setStatus_ne hk] at hincomp'
          exact htask t ht' hincomp'

theorem reminderInvariant_complete (st : SysState) (hinv : reminderInvariant st)
    (deliver : Nat → Bool) (tid uid : Nat) :
    reminderInvariant (complete_task deliver st tid uid).state := by
  obtain ⟨hjob, htask⟩ := hinv
  cases hfa : findAssignment st.store tid uid with
  | none =>
    simp only [complete_task, hfa]
    exact ⟨hjob, htask⟩
  | some a =>
    have hmem : a ∈ st.store.assignments := List.mem_of_find?_eq_some hfa
    obtain ⟨htid, huid⟩ : a.task_id = tid ∧ a.user_id = uid := by
      simpa using List.find?_some hfa
    cases hs : (a.status != Status.Completed) with
    | false =>
      simp only [complete_task, hfa, hs]
      exact ⟨hjob, htask⟩
    | true =>
      have hsne : a.status ≠ Status.Completed := by simpa using hs
      simp only [complete_task, hfa, hs, if_true]
      have hainf : a ∈ filterTask st.store.assignments tid := by
        simp only [filterTask]
        exact List.mem_filter.mpr ⟨hmem, by simp [htid]⟩
      have hincomp_before : is_complete (filterTask st.store.assignments tid) = false :=
        is_complete_eq_false_of_mem hainf hsne
      have hupd : updAsg tid uid Status.Completed a = { a with status := Status.Completed } := by
        unfold updAsg
        simp [htid, huid]
      have hwitness : ({ a with status := Status.Completed } : TaskAssignment) ∈
          filterTask (setStatus st.store.assignments tid uid Status.Completed) tid := by
        rw [filterTask_setStatus, ← hupd]
        exact List.mem_map_of_mem _ hainf
      have hne : (filterTask (setStatus st.store.assignments tid uid Status.Completed) tid).isEmpty
          = false := by
        cases he : (filterTask (setStatus st.store.assignments tid uid
            Status.Completed) tid).isEmpty
        · rfl
        · rw [List.isEmpty_iff] at he
          rw [he] at hwitness
          cases hwitness
      cases hft : findTask st.store tid with
      | none =>
        rw [notify_of_none deliver
          { st with store := { st.store with
              assignments := setStatus st.store.assignments tid uid Status.Completed } } tid hft]
        have hnotid : ∀ t ∈ st.store.tasks, t.id ≠ tid := findTask_eq_none_iff.mp hft
        constructor
        · intro j hj
          have hj' : j ∈ st.jobs := hj
          obtain ⟨hex, hinc⟩ := hjob j hj'
          have hkne : j.task_id ≠ tid := by
            intro hk
            obtain ⟨t, htm, hteq⟩ := taskExists_iff.mp hex
            exact hnotid t htm (hteq.trans hk)
          refine ⟨hex, ?_⟩
          show is_complete
              (filterTask (setStatus st.store.assignments tid uid Status.Completed) j.task_id)
              = false
          rw [filterTask_setStatus_ne hkne]
          exact hinc
        · intro t ht
          have ht' : t ∈ st.store.tasks := ht
          intro hincomp
          have hincomp' : is_complete
              (filterTask (setStatus st.store.assignments tid uid Status.Completed) t.id)
              = false := hincomp
          rw [filterTask_setStatus_ne (hnotid t ht')] at hincomp'
          show hasJob st t.id = true
          exact htask t ht' hincomp'
      | some T =>
        cases hac : allCompleted (filterTask (setStatus st.store.assignments tid uid
            Status.Completed) tid) with
        | true =>
          rw [notify_of_allCompleted deliver
            { st with store := { st.store with
                assignments := setStatus st.store.assignments tid uid Status.Completed } } tid
            hft hne hac]
          constructor
          · intro j hj
            obtain ⟨hjm, hjne⟩ := mem_removeJob.mp hj
            obtain ⟨hex, hinc⟩ := hjob j hjm
            refine ⟨hex, ?_⟩
            show is_complete
                (filterTask (setStatus st.store.assignments tid uid Status.Completed) j.task_id)
                = false
            rw [filterTask_setStatus_ne hjne]
            exact hinc
          · intro t ht
            have ht' : t ∈ st.store.tasks := ht
            intro hincomp
            have hincomp' : is_complete
                (filterTask (setStatus st.store.assignments tid uid Status.Completed) t.id)
                = false := hincomp
            by_cases hk : t.id = tid
            · rw [hk] at hincomp'
              have hct : is_complete
                  (filterTask (setStatus st.store.assignments tid uid Status.Completed) tid)
                  = true := by
                simp [is_complete, hne, hac]
              rw [hct] at hincomp'
              cases hincomp'
            · rw [filterTask_setStatus_ne hk] at hincomp'
              have := htask t ht' hincomp'
              obtain ⟨j, hjm, hjeq⟩ := hasJob_iff.mp this
              rw [hasJob_iff]
              exact ⟨j, mem_removeJob.mpr ⟨hjm, by rw [hjeq]; exact hk⟩, hjeq⟩
        | false =>
          rw [notify_of_notAllCompleted deliver
            { st with store := { st.store with
                assignments := setStatus st.store.assignments tid uid Status.Completed } } tid
            hft hac]
          constructor
          · intro j hj
            have hj' : j ∈ st.jobs := hj
            obtain ⟨hex, hinc⟩ := hjob j hj'
            refine ⟨hex, ?_⟩
            show is_complete
                (filterTask (setStatus st.store.assignments tid uid Status.Completed) j.task_id)
                = false
            by_cases hk : j.task_id = tid
            · rw [hk]
              simp [is_complete, hac]
            · rw [filterTask_setStatus_ne hk]
              exact hinc
          · intro t ht
            have ht' : t ∈ st.store.tasks := ht
            intro hincomp
            have hincomp' : is_complete
                (filterTask (setStatus st.store.assignments tid uid Status.Completed) t.id)
                = false := hincomp
            show hasJob st t.id = true
            by_cases hk : t.id = tid
            · exact htask t ht' (by rw [hk]; exact hincomp_before)
            · rw [filterTask_setStatus_ne hk] at hincomp'
              exact htask t ht' hincomp'

theorem filterTask_removeTask {l : List TaskAssignment} {tid k : Nat} (h : k ≠ tid) :
    filterTask (l.filter (fun a => a.task_id != tid)) k = filterTask l k := by
  induction l with
  | nil => rfl
  | cons a l ih =>
    simp only [filterTask] at ih ⊢
    by_cases hk : a.task_id = k
    · have h1 : (a.task_id != tid) = true := by simp [hk, h]
      have h2 : (a.task_id == k) = true := by simp [hk]
      simp [List.filter_cons, h1, h2, ih]
    · have h2 : (a.task_id == k) = false := by simp [hk]
      cases h1 : (a.task_id != tid) <;> simp [List.filter_cons, h1, h2, ih]

theorem reminderInvariant_delete (st : SysState) (hinv : reminderInvariant st) (tid : Nat) :
    reminderInvariant (confirm_delete_task st tid).1 := by
  obtain ⟨hjob, htask⟩ := hinv
  cases hft : findTask st.store tid with
  | none =>
    simp only [confirm_delete_task, hft]
    exact ⟨hjob, htask⟩
  | some T =>
    simp only [confirm_delete_task, hft]
    constructor
    · intro j hj
      obtain ⟨hjm, hjne⟩ := mem_removeJob.mp hj
      obtain ⟨hex, hinc⟩ := hjob j hjm
      constructor
      · rw [taskExists_iff]
        obtain ⟨t, htm, hteq⟩ := taskExists_iff.mp hex
        refine ⟨t, ?_, hteq⟩
        show t ∈ st.store.tasks.filter (fun t => t.id != tid)
        exact List.mem_filter.mpr ⟨htm, by simp [hteq, hjne]⟩
      · show is_complete
            (filterTask (st.store.assignments.filter (fun a => a.task_id != tid)) j.task_id)
            = false
        rw [filterTask_removeTask hjne]
        exact hinc
    · intro t ht
      have htf := List.mem_filter.mp ht
      have htne : t.id ≠ tid := by simpa using htf.2
      intro hincomp
      have hincomp' : is_complete
          (filterTask (st.store.assignments.filter (fun a => a.task_id != tid)) t.id)
          = false := hincomp
      rw [filterTask_removeTask htne] at hincomp'
      have := htask t htf.1 hincomp'
      obtain ⟨j, hjm, hjeq⟩ := hasJob_iff.mp this
      rw [hasJob_iff]
      exact ⟨j, mem_removeJob.mpr ⟨hjm, by rw [hjeq]; exact htne⟩, hjeq⟩

/-! ### Job-registry lemmas and the claims -/

theorem assignments_fresh_nil {s : Store} (hw : storeWf s) :
    filterTask s.assignments (freshTaskId s) = [] := by
  cases hF : filterTask s.assignments (freshTaskId s) with
  | nil => rfl
  | cons a rest =>
    have ha : a ∈ filterTask s.assignments (freshTaskId s) := by
      rw [hF]; exact List.mem_cons_self _ _
    simp only [filterTask] at ha
    rw [List.mem_filter] at ha
    obtain ⟨t, ht, hteq⟩ := hw a ha.1
    have hid : a.task_id = freshTaskId s := by simpa using ha.2
    exact absurd (hteq.trans hid) (id_ne_freshTaskId ht)

theorem removeJob_removeJob (l : List Job) (tid : Nat) :
    removeJob (removeJob l tid) tid = removeJob l tid := by
  induction l with
  | nil => rfl
  | cons j l ih =>
    simp only [removeJob, List.filter_cons] at ih ⊢
    cases h : (j.task_id != tid) <;> simp [List.filter_cons, h, ih]

theorem removeJob_append (l l' : List Job) (tid : Nat) :
    removeJob (l ++ l') tid = removeJob l tid ++ removeJob l' tid := by
  simp [removeJob]

theorem addJob_addJob (l : List Job) (tid i i' : Nat) :
    addJob (addJob l tid i) tid i' = addJob l tid i' := by
  simp only [addJob, removeJob_append, removeJob_removeJob]
  have h1 : removeJob [({ task_id := tid, interval := i } : Job)] tid = [] := by
    simp [removeJob]
  rw [h1, List.append_nil]

theorem filter_removeJob_self (l : List Job) (tid : Nat) :
    (removeJob l tid).filter (fun j => j.task_id == tid) = [] := by
  induction l with
  | nil => rfl
  | cons j l ih =>
    simp only [removeJob, List.filter_cons] at ih ⊢
    cases h : (j.task_id != tid) with
    | false => simp [removeJob] at ih ⊢
    | true =>
      have h2 : (j.task_id == tid) = false := by
        cases h3 : (j.task_id == tid)
        · rfl
        · rw [bne_iff_ne] at h
          have h4 : j.task_id = tid := by simpa using h3
          exact absurd h4 h
      simp only [if_true]
      rw [List.filter_cons]
      simp only [h2, if_false]
      simp [removeJob] at ih ⊢

theorem countJobs_addJob_self (l : List Job) (tid i : Nat) :
    countJobs (addJob l tid i) tid = 1 := by
  simp only [countJobs, addJob, List.filter_append, filter_removeJob_self, List.nil_append]
  simp

theorem keys_removeJob (l : List Job) (tid : Nat) :
    (removeJob l tid).map (fun j => j.task_id) =
      (l.map (fun j => j.task_id)).filter (fun k => k != tid) := by
  induction l with
  | nil => rfl
  | cons j l ih =>
    simp only [removeJob, List.filter_cons, List.map_cons] at ih ⊢
    cases h : (j.task_id != tid) <;> simp [h, ih, removeJob]

theorem keys_nodup_addJob {l : List Job} (tid i : Nat)
    (h : (l.map (fun j => j.task_id)).Nodup) :
    ((addJob l tid i).map (fun j => j.task_id)).Nodup := by
  simp only [addJob, List.map_append, keys_removeJob, List.map_cons, List.map_nil]
  apply List.Nodup.append
  · exact List.Nodup.filter _ h
  · exact List.nodup_singleton _
  · intro x hx hmem
    have hxt : x = tid := by simpa using hmem
    have := (List.mem_filter.mp hx).2
    rw [hxt] at this
    simp at this

theorem countJobs_eq_zero_of_not_mem_keys {l : List Job} {tid : Nat}
    (h : tid ∉ l.map (fun j => j.task_id)) : countJobs l tid = 0 := by
  induction l with
  | nil => rfl
  | cons j l ih =>
    simp only [List.map_cons, List.mem_cons] at h
    push_neg at h
    have h2 : (j.task_id == tid) = false := by
      cases h3 : (j.task_id == tid)
      · rfl
      · have h4 : j.task_id = tid := by simpa using h3
        exact absurd h4.symm h.1
    simp only [countJobs, List.filter_cons, h2, if_false]
    exact ih h.2

theorem countJobs_le_one_of_nodup {l : List Job}
    (h : (l.map (fun j => j.task_id)).Nodup) (tid : Nat) : countJobs l tid ≤ 1 := by
  induction l with
  | nil => simp [countJobs]
  | cons j l ih =>
    simp only [List.map_cons, List.nodup_cons] at h
    obtain ⟨hnm, hnd⟩ := h
    by_cases hk : j.task_id = tid
    · have hz : countJobs l tid = 0 := countJobs_eq_zero_of_not_mem_keys (by rw [← hk]; exact hnm)
      have h2 : (j.task_id == tid) = true := by simp [hk]
      simp only [countJobs, List.filter_cons, h2, if_true, List.length_cons]
      simp only [countJobs] at hz
      omega
    · have h2 : (j.task_id == tid) = false := by simp [hk]
      simp only [countJobs, List.filter_cons, h2, if_false]
      exact ih hnd

theorem keys_nodup_fold_arm (calls : List (Nat × Nat)) (st : SysState)
    (h : (st.jobs.map (fun j => j.task_id)).Nodup) :
    (((calls.foldl (fun s c => schedule_reminder s c.1 c.2) st).jobs).map
        (fun j => j.task_id)).Nodup := by
  induction calls generalizing st with
  | nil => exact h
  | cons c cs ih =>
    exact ih (schedule_reminder st c.1 c.2) (keys_nodup_addJob c.1 c.2 h)

/-! ### Claim C1 -/

def c1User : User := ⟨1, "u", "n", "s", "p1", "staff"⟩

def c1Rector : User := ⟨10, "r", "n", "s", "p2", "rector"⟩

def c1S0 : SysState := ⟨⟨[c1User, c1Rector], [], []⟩, []⟩

def c1S1 : SysState := (create_task_flow c1S0 "t" "d" 0 5 [1]).1

def c1S2 : SysState := (complete_task (fun _ => true) c1S1 1 1).state

def c1S3 : SysState := (edit_task_interval c1S2 1 "5").1

/-- Claim C1 counterexample: after creating a task assigned to one user and
that user completing it, the invariant holds and the job is gone; but editing
the notification interval of the already-completed task unconditionally
re-arms the reminder job, so a job exists for a complete task and the
invariant is violated right after the edit. -/
theorem C1_counterexample :
    reminderInvariant c1S2 ∧
    (edit_task_interval c1S2 1 "5").2 = EditOutcome.updated ∧
    taskExists c1S3 1 = true ∧
    is_complete (assignmentsFor c1S3.store 1) = true ∧
    hasJob c1S3 1 = true ∧
    ¬ reminderInvariant c1S3 :=
  ⟨by decide, by decide, by decide, by decide, by decide, by decide⟩

/-- Claim C1 (amended): on a well-formed store, the reminder-job invariant
(a job exists iff its task exists and the completion condition is false) is
restored after every task create, assignment-status change (accept or
complete), and task deletion. The interval edit named by the original claim
does not preserve it: editing a completed task re-arms its job
(see the counterexample). -/
theorem C1_invariant_preserved (st : SysState) (hw : storeWf st.store)
    (hinv : reminderInvariant st) :
    (∀ title description deadline interval ids,
        reminderInvariant (create_task_flow st title description deadline interval ids).1) ∧
    (∀ tid uid, reminderInvariant (accept_task st tid uid).1) ∧
    (∀ deliver tid uid, reminderInvariant (complete_task deliver st tid uid).state) ∧
    (∀ tid, reminderInvariant (confirm_delete_task st tid).1) :=
  ⟨fun title description deadline interval ids =>
      reminderInvariant_create st hw hinv title description deadline interval ids,
   fun tid uid => reminderInvariant_accept st hinv tid uid,
   fun deliver tid uid => reminderInvariant_complete st hinv deliver tid uid,
   fun tid => reminderInvariant_delete st hinv tid⟩

def c1W : SysState :=
  ⟨⟨[c1User, c1Rector], [⟨1, "t", "d", 0, 5⟩], [⟨1, 1, Status.Pending⟩]⟩, [⟨1, 5⟩]⟩

/-- Witness for C1_invariant_preserved at a concrete well-formed state. -/
theorem C1_invariant_preserved_witness :
    reminderInvariant ((create_task_flow c1W "a" "b" 0 2 [1]).1) ∧
    reminderInvariant ((accept_task c1W 1 1).1) ∧
    reminderInvariant ((complete_task (fun _ => true) c1W 1 1).state) ∧
    reminderInvariant ((confirm_delete_task c1W 1).1) :=
  ⟨(C1_invariant_preserved c1W (by decide) (by decide)).1 "a" "b" 0 2 [1],
   (C1_invariant_preserved c1W (by decide) (by decide)).2.1 1 1,
   (C1_invariant_preserved c1W (by decide) (by decide)).2.2.1 (fun _ => true) 1 1,
   (C1_invariant_preserved c1W (by decide) (by decide)).2.2.2 1⟩

/-! ### Claim C2 -/

def c2S : SysState := ⟨⟨[], [⟨1, "t", "d", 0, 5⟩], []⟩, [⟨1, 5⟩]⟩

/-- Claim C2 counterexample: a reminder tick for a task with zero assignments
removes the task's reminder job (the bare all-completed fold is vacuously
true), contradicting the claim that the tick leaves the job in place. -/
theorem C2_counterexample :
    assignmentsFor c2S.store 1 = [] ∧
    hasJob c2S 1 = true ∧
    hasJob (send_reminder (fun _ => true) c2S 1).state 1 = false :=
  ⟨by decide, by decide, by decide⟩

/-- Claim C2 (amended): for a task with zero assignments, the completion
condition is false and the completion-notification path treats it so,
changing nothing and notifying nobody; the reminder tick skips delivery
(no recipients, no error) but, unlike the claim states, cancels the reminder
job because its bare all-completed fold is vacuously true. -/
theorem C2_zero_assignments (deliver : Nat → Bool) (st : SysState) (tid : Nat) (T : Task)
    (ht : findTask st.store tid = some T)
    (hz : assignmentsFor st.store tid = []) :
    is_complete (assignmentsFor st.store tid) = false ∧
    notify_completion_if_all_completed deliver st tid = ⟨st, [], []⟩ ∧
    send_reminder deliver st tid = ⟨{ st with jobs := removeJob st.jobs tid }, [], []⟩ := by
  refine ⟨?_, ?_, ?_⟩
  · rw [hz]; rfl
  · exact notify_of_isEmpty deliver st tid ht (by rw [hz]; rfl)
  · exact send_reminder_of_allCompleted deliver st tid ht (by rw [hz]; rfl)

/-- Witness for C2_zero_assignments on a concrete zero-assignment task. -/
theorem C2_zero_assignments_witness :
    is_complete (assignmentsFor c2S.store 1) = false ∧
    notify_completion_if_all_completed (fun _ => true) c2S 1 = ⟨c2S, [], []⟩ ∧
    send_reminder (fun _ => true) c2S 1
      = ⟨{ c2S with jobs := removeJob c2S.jobs 1 }, [], []⟩ :=
  C2_zero_assignments (fun _ => true) c2S 1 ⟨1, "t", "d", 0, 5⟩ (by decide) (by decide)

/-! ### Claim C3 -/

def c3S : SysState := ⟨⟨[], [], []⟩, [⟨5, 3⟩]⟩

/-- Claim C3 counterexample: a tick whose task id is absent from the store
returns without removing the reminder job - the job for task 5 is still
registered after the tick, contradicting the claimed disarm. -/
theorem C3_counterexample :
    taskExists c3S 5 = false ∧
    hasJob c3S 5 = true ∧
    (send_reminder (fun _ => true) c3S 5).state = c3S ∧
    hasJob (send_reminder (fun _ => true) c3S 5).state 5 = true :=
  ⟨by decide, by decide, by decide, by decide⟩

/-- Claim C3 (amended): a tick for a task id absent from the store returns
without error and delivers nothing, but it does not remove the job; the
system state is entirely unchanged, so every subsequent tick for that id is
the same benign no-op (the job keeps firing until cancelled elsewhere). -/
theorem C3_absent_task_tick (deliver : Nat → Bool) (st : SysState) (tid : Nat)
    (h : findTask st.store tid = none) :
    send_reminder deliver st tid = ⟨st, [], []⟩ ∧
    send_reminder deliver (send_reminder deliver st tid).state tid = ⟨st, [], []⟩ := by
  have h1 := send_reminder_of_none deliver st tid h
  refine ⟨h1, ?_⟩
  rw [h1]
  exact h1

/-- Witness for C3_absent_task_tick on a concrete orphaned job. -/
theorem C3_absent_task_tick_witness :
    send_reminder (fun _ => true) c3S 5 = ⟨c3S, [], []⟩ ∧
    send_reminder (fun _ => true) (send_reminder (fun _ => true) c3S 5).state 5
      = ⟨c3S, [], []⟩ :=
  C3_absent_task_tick (fun _ => true) c3S 5 (by decide)

/-! ### Claim C6 -/

/-- Claim C6: arming a reminder atomically replaces any existing timer with
the same task id, so arming is idempotent (a second arm for the same id
yields the same registry as arming once with the final interval), an arm
leaves exactly one job with that id, and any sequence of arm calls starting
from a registry with no duplicate ids leaves at most one job per task id. -/
theorem C6_arm_idempotent_unique (st : SysState)
    (h : (st.jobs.map (fun j => j.task_id)).Nodup) :
    (∀ tid i i', schedule_reminder (schedule_reminder st tid i) tid i'
        = schedule_reminder st tid i') ∧
    (∀ tid i, countJobs (schedule_reminder st tid i).jobs tid = 1) ∧
    (∀ calls : List (Nat × Nat), ∀ tid,
        countJobs ((calls.foldl (fun s c => schedule_reminder s c.1 c.2) st).jobs) tid ≤ 1) := by
  refine ⟨?_, ?_, ?_⟩
  · intro tid i i'
    simp only [schedule_reminder]
    rw [addJob_addJob]
  · intro tid i
    exact countJobs_addJob_self st.jobs tid i
  · intro calls tid
    exact countJobs_le_one_of_nodup (keys_nodup_fold_arm calls st h) tid

def c6S : SysState := ⟨⟨[], [], []⟩, [⟨1, 2⟩, ⟨2, 9⟩]⟩

/-- Witness for C6_arm_idempotent_unique on a concrete registry. -/
theorem C6_arm_idempotent_unique_witness :
    schedule_reminder (schedule_reminder c6S 1 4) 1 7 = schedule_reminder c6S 1 7 ∧
    countJobs (schedule_reminder c6S 1 4).jobs 1 = 1 ∧
    countJobs (([(1, 4), (3, 2), (1, 6)].foldl
        (fun s c => schedule_reminder s c.1 c.2) c6S).jobs) 1 ≤ 1 :=
  ⟨(C6_arm_idempotent_unique c6S (by decide)).1 1 4 7,
   (C6_arm_idempotent_unique c6S (by decide)).2.1 1 4,
   (C6_arm_idempotent_unique c6S (by decide)).2.2 [(1, 4), (3, 2), (1, 6)] 1⟩

/-! ### Claim C7 -/

/-- Claim C7: during a tick of a not-yet-complete task, the set of assignees
a reminder send is attempted for is exactly the outstanding assignees and is
independent of which deliveries fail; a failure neither removes the job nor
changes any state (the tick returns the state unchanged), and the tick is a
total function, so no exception reaches the scheduler. -/
theorem C7_delivery_failure_isolated (st : SysState) (tid : Nat) (T : Task)
    (deliver deliver' : Nat → Bool)
    (ht : findTask st.store tid = some T)
    (hn : allCompleted (assignmentsFor st.store tid) = false) :
    (send_reminder deliver st tid).state = st ∧
    (send_reminder deliver st tid).attempted = outstandingIds (assignmentsFor st.store tid) ∧
    (send_reminder deliver' st tid).attempted = (send_reminder deliver st tid).attempted ∧
    (send_reminder deliver st tid).delivered
      = (outstandingIds (assignmentsFor st.store tid)).filter deliver := by
  rw [send_reminder_of_notAllCompleted deliver st tid ht hn,
    send_reminder_of_notAllCompleted deliver' st tid ht hn]
  exact ⟨rfl, rfl, rfl, rfl⟩

def c7S : SysState :=
  ⟨⟨[⟨1, "u", "n", "s", "p1", "staff"⟩, ⟨2, "v", "n", "s", "p2", "staff"⟩],
    [⟨1, "t", "d", 0, 5⟩],
    [⟨1, 1, Status.Pending⟩, ⟨1, 2, Status.Accepted⟩]⟩, [⟨1, 5⟩]⟩

/-- Witness for C7_delivery_failure_isolated: delivery to user 1 fails but
user 2 is still attempted, and the job registry is untouched. -/
theorem C7_delivery_failure_isolated_witness :
    (send_reminder (fun u => u != 1) c7S 1).state = c7S ∧
    (send_reminder (fun u => u != 1) c7S 1).attempted
      = outstandingIds (assignmentsFor c7S.store 1) ∧
    (send_reminder (fun _ => true) c7S 1).attempted
      = (send_reminder (fun u => u != 1) c7S 1).attempted ∧
    (send_reminder (fun u => u != 1) c7S 1).delivered
      = (outstandingIds (assignmentsFor c7S.store 1)).filter (fun u => u != 1) :=
  C7_delivery_failure_isolated c7S 1 ⟨1, "t", "d", 0, 5⟩ (fun u => u != 1) (fun _ => true)
    (by decide) (by decide)

/-! ### Claim C8 -/

/-- Claim C8: an interval input that is not a positive integer number of
minutes (a non-digit string, or the digit string with value zero) is
rejected with a re-prompt by both the creation handler and the edit handler,
before any mutation: the conversation data, the stored task (including its
notification interval) and the job registry are all returned unchanged. -/
theorem C8_invalid_interval_rejected (p : PendingTask) (input : String) (st : SysState)
    (tid : Nat) (T : Task) (hv : parse_interval input = none)
    (ht : findTask st.store tid = some T) :
    handle_rector_task_notification_interval p input = (p, IntervalStep.reprompt) ∧
    edit_task_interval st tid input = (st, EditOutcome.reprompt) := by
  unfold parse_interval at hv
  cases hd : strIsDigits input with
  | false =>
    constructor
    · unfold handle_rector_task_notification_interval
      rw [hd]
      rfl
    · unfold edit_task_interval
      rw [ht, hd]
      rfl
  | true =>
    rw [hd] at hv
    simp only [Bool.not_true, if_false] at hv
    by_cases h0 : strToNat input ≤ 0
    · constructor
      · unfold handle_rector_task_notification_interval
        rw [hd]
        simp [h0]
      · unfold edit_task_interval
        rw [ht, hd]
        simp [h0]
    · rw [if_neg h0] at hv
      cases hv

def c8S : SysState := ⟨⟨[], [⟨1, "t", "d", 0, 5⟩], []⟩, [⟨1, 5⟩]⟩

def c8P : PendingTask := ⟨"t", "d", 0, none⟩

/-- Witness for C8_invalid_interval_rejected with the rejected input 0. -/
theorem C8_invalid_interval_rejected_witness :
    (handle_rector_task_notification_interval c8P "0" = (c8P, IntervalStep.reprompt) ∧
      edit_task_interval c8S 1 "0" = (c8S, EditOutcome.reprompt)) ∧
    (handle_rector_task_notification_interval c8P "x7" = (c8P, IntervalStep.reprompt) ∧
      edit_task_interval c8S 1 "x7" = (c8S, EditOutcome.reprompt)) :=
  ⟨C8_invalid_interval_rejected c8P "0" c8S 1 ⟨1, "t", "d", 0, 5⟩ (by decide) (by decide),
   C8_invalid_interval_rejected c8P "x7" c8S 1 ⟨1, "t", "d", 0, 5⟩ (by decide) (by decide)⟩

/-! ### Claim C9 -/

/-- Claim C9: a registration attempt with a phone number already stored is
rejected when the stored owner id differs from the requester (answered as
belonging to another user, with the store unchanged, so no user row is
created), and is answered as already-registered when the owner id equals the
requester, again with the store unchanged. -/
theorem C9_duplicate_contact (s : Store) (user_id : Nat)
    (username name surname phone_number role : String) (u : User)
    (h : s.users.find? (fun x => x.phone_number == phone_number) = some u) :
    (u.id ≠ user_id →
      register_flow s user_id username name surname phone_number role
        = (s, RegOutcome.belongsToOther)) ∧
    (u.id = user_id →
      register_flow s user_id username name surname phone_number role
        = (s, RegOutcome.alreadyRegistered)) := by
  constructor
  · intro hne
    have hb : (u.id == user_id) = false := by simp [hne]
    simp [register_flow, handle_contact, h, hb]
  · intro heq
    have hb : (u.id == user_id) = true := by simp [heq]
    simp [register_flow, handle_contact, h, hb]

def c9Store : Store := ⟨[⟨1, "u", "n", "s", "p1", "staff"⟩], [], []⟩

/-- Witness for C9_duplicate_contact: user 2 cannot register with user 1's
phone number, and user 1 re-registering with it is already-registered; the
store is unchanged either way. -/
theorem C9_duplicate_contact_witness :
    register_flow c9Store 2 "w" "a" "b" "p1" "staff" = (c9Store, RegOutcome.belongsToOther) ∧
    register_flow c9Store 1 "w" "a" "b" "p1" "staff" = (c9Store, RegOutcome.alreadyRegistered) :=
  ⟨(C9_duplicate_contact c9Store 2 "w" "a" "b" "p1" "staff" ⟨1, "u", "n", "s", "p1", "staff"⟩
      (by decide)).1 (by decide),
   (C9_duplicate_contact c9Store 1 "w" "a" "b" "p1" "staff" ⟨1, "u", "n", "s", "p1", "staff"⟩
      (by decide)).2 (by decide)⟩

/-! ### Claim C10 -/

/-- Claim C10: creating a task with a list of assignee ids always creates the
task (no error path) on a well-formed store: the new task row exists, its
assignments are exactly one Pending assignment per requested id that matches
an existing user (ids with no user row are silently dropped, possibly leaving
zero assignments), and the reminder job for the new task is armed in every
case. -/
theorem C10_unknown_assignees_skipped (st : SysState) (hw : storeWf st.store)
    (title description : String) (deadline interval : Nat) (ids : List Nat) :
    taskExists (create_task_flow st title description deadline interval ids).1
        (create_task_flow st title description deadline interval ids).2 = true ∧
    (assignmentsFor (create_task_flow st title description deadline interval ids).1.store
        (create_task_flow st title description deadline interval ids).2).map
        (fun a => a.user_id)
      = ids.filter (fun i => st.store.users.any (fun u => u.id == i)) ∧
    (assignmentsFor (create_task_flow st title description deadline interval ids).1.store
        (create_task_flow st title description deadline interval ids).2).all
        (fun a => a.status == Status.Pending) = true ∧
    hasJob (create_task_flow st title description deadline interval ids).1
        (create_task_flow st title description deadline interval ids).2 = true := by
  simp only [create_task_flow, create_task, schedule_reminder, addJob]
  have hrw : filterTask (st.store.assignments ++
        (ids.filter (fun i => st.store.users.any (fun u => u.id == i))).map
          (fun i => mkAssignment (freshTaskId st.store) i)) (freshTaskId st.store)
      = (ids.filter (fun i => st.store.users.any (fun u => u.id == i))).map
          (fun i => mkAssignment (freshTaskId st.store) i) := by
    rw [filterTask_append, assignments_fresh_nil hw, List.nil_append,
      filterTask_map_mkAssignment_eq]
  refine ⟨?_, ?_, ?_, ?_⟩
  · rw [taskExists_iff]
    exact ⟨⟨freshTaskId st.store, title, description, deadline, interval⟩,
      List.mem_append_right _ (List.mem_cons_self _ _), rfl⟩
  · show (filterTask (st.store.assignments ++
        (ids.filter (fun i => st.store.users.any (fun u => u.id == i))).map
          (fun i => mkAssignment (freshTaskId st.store) i)) (freshTaskId st.store)).map
        (fun a => a.user_id)
      = ids.filter (fun i => st.store.users.any (fun u => u.id == i))
    rw [hrw, List.map_map]
    exact List.map_id _
  · show (filterTask (st.store.assignments ++
        (ids.filter (fun i => st.store.users.any (fun u => u.id == i))).map
          (fun i => mkAssignment (freshTaskId st.store) i)) (freshTaskId st.store)).all
        (fun a => a.status == Status.Pending) = true
    rw [hrw, List.all_eq_true]
    intro a ha
    obtain ⟨i, hi, rfl⟩ := List.mem_map.mp ha
    rfl
  · rw [hasJob_iff]
    exact ⟨⟨freshTaskId st.store, interval⟩,
      List.mem_append_right _ (List.mem_cons_self _ _), rfl⟩

def c10S : SysState := ⟨⟨[⟨1, "u", "n", "s", "p1", "staff"⟩], [], []⟩, []⟩

/-- Witness for C10_unknown_assignees_skipped: requesting assignees 1 and 7
when only user 1 exists keeps exactly the assignment for 1; requesting only
the unknown id 7 yields a task with zero assignments, armed all the same. -/
theorem C10_unknown_assignees_skipped_witness :
    ((assignmentsFor (create_task_flow c10S "t" "d" 0 5 [1, 7]).1.store
        (create_task_flow c10S "t" "d" 0 5 [1, 7]).2).map (fun a => a.user_id)
      = [1] ∧
      hasJob (create_task_flow c10S "t" "d" 0 5 [1, 7]).1
        (create_task_flow c10S "t" "d" 0 5 [1, 7]).2 = true) ∧
    ((assignmentsFor (create_task_flow c10S "t" "d" 0 5 [7]).1.store
        (create_task_flow c10S "t" "d" 0 5 [7]).2).map (fun a => a.user_id)
      = [] ∧
      hasJob (create_task_flow c10S "t" "d" 0 5 [7]).1
        (create_task_flow c10S "t" "d" 0 5 [7]).2 = true) :=
  ⟨⟨(C10_unknown_assignees_skipped c10S (by decide) "t" "d" 0 5 [1, 7]).2.1,
    (C10_unknown_assignees_skipped c10S (by decide) "t" "d" 0 5 [1, 7]).2.2.2⟩,
   ⟨(C10_unknown_assignees_skipped c10S (by decide) "t" "d" 0 5 [7]).2.1,
    (C10_unknown_assignees_skipped c10S (by decide) "t" "d" 0 5 [7]).2.2.2⟩⟩

theorem notify_state_store (deliver : Nat → Bool) (st : SysState) (tid : Nat) :
    (notify_completion_if_all_completed deliver st tid).state.store = st.store := by
  unfold notify_completion_if_all_completed
  cases h : findTask st.store tid
  · rfl
  · simp only
    split
    · rfl
    · split <;> rfl

/-! ### Claim C5 -/

/-- Claim C5: for an existing (task, user) assignment, accepting twice ends in
the same state as accepting once, the second call answered as
already-accepted with no state change; completing twice ends in the same
state as completing once, the second call answered as already-completed with
no notification attempt (the completion evaluation is not re-run for any
delivery oracle). -/
theorem C5_idempotent (st : SysState) (tid uid : Nat) (a : TaskAssignment)
    (deliver deliver' : Nat → Bool)
    (ha : findAssignment st.store tid uid = some a) :
    accept_task (accept_task st tid uid).1 tid uid
        = ((accept_task st tid uid).1, AcceptOutcome.alreadyAccepted) ∧
    complete_task deliver' (complete_task deliver st tid uid).state tid uid
        = ⟨(complete_task deliver st tid uid).state, CompleteOutcome.alreadyCompleted,
            [], []⟩ := by
  obtain ⟨htid, huid⟩ : a.task_id = tid ∧ a.user_id = uid := by
    simpa using List.find?_some ha
  have ha' : st.store.assignments.find? (fun x => x.task_id == tid && x.user_id == uid)
      = some a := ha
  constructor
  · cases hp : (a.status == Status.Pending) with
    | false =>
      simp [accept_task, ha, hp]
    | true =>
      have hupd : updAsg tid uid Status.Accepted a = { a with status := Status.Accepted } := by
        unfold updAsg
        simp [htid, huid]
      have hfa2 : findAssignment
          { st.store with
            assignments := setStatus st.store.assignments tid uid Status.Accepted }
          tid uid = some { a with status := Status.Accepted } := by
        show (setStatus st.store.assignments tid uid Status.Accepted).find?
            (fun x => x.task_id == tid && x.user_id == uid) = _
        rw [find?_setStatus, ha']
        simp [hupd]
      simp only [accept_task, ha, hp, if_true]
      simp only [accept_task, hfa2]
      rfl
  · cases hs : (a.status != Status.Completed) with
    | false =>
      simp [complete_task, ha, hs]
    | true =>
      have hupd : updAsg tid uid Status.Completed a = { a with status := Status.Completed } := by
        unfold updAsg
        simp [htid, huid]
      simp only [complete_task, ha, hs, if_true]
      have hstore := notify_state_store deliver
        { st with
          store := { st.store with
            assignments := setStatus st.store.assignments tid uid Status.Completed } } tid
      have hfa3 : findAssignment
          (notify_completion_if_all_completed deliver
            { st with
              store := { st.store with
                assignments := setStatus st.store.assignments tid uid Status.Completed } }
            tid).state.store tid uid = some { a with status := Status.Completed } := by
        rw [hstore]
        show (setStatus st.store.assignments tid uid Status.Completed).find?
            (fun x => x.task_id == tid && x.user_id == uid) = _
        rw [find?_setStatus, ha']
        simp [hupd]
      simp only [complete_task, hfa3]
      rfl

def c5S : SysState :=
  ⟨⟨[⟨1, "u", "n", "s", "p1", "staff"⟩, ⟨10, "r", "n", "s", "p2", "rector"⟩],
    [⟨1, "t", "d", 0, 5⟩], [⟨1, 1, Status.Pending⟩]⟩, [⟨1, 5⟩]⟩

/-- Witness for C5_idempotent on a concrete assignment. -/
theorem C5_idempotent_witness :
    accept_task (accept_task c5S 1 1).1 1 1
        = ((accept_task c5S 1 1).1, AcceptOutcome.alreadyAccepted) ∧
    complete_task (fun _ => false) (complete_task (fun _ => true) c5S 1 1).state 1 1
        = ⟨(complete_task (fun _ => true) c5S 1 1).state, CompleteOutcome.alreadyCompleted,
            [], []⟩ :=
  C5_idempotent c5S 1 1 ⟨1, 1, Status.Pending⟩ (fun _ => true) (fun _ => false) (by decide)

theorem any_removeJob_self (l : List Job) (tid : Nat) :
    (removeJob l tid).any (fun j => j.task_id == tid) = false := by
  cases h : (removeJob l tid).any (fun j => j.task_id == tid)
  · rfl
  · obtain ⟨j, hjm, hjeq⟩ := List.any_eq_true.mp h
    have hne := (mem_removeJob.mp hjm).2
    have heq : j.task_id = tid := by simpa using hjeq
    exact absurd heq hne

theorem complete_task_no_renotify (st' : SysState) (tid : Nat)
    (hall : allCompleted (assignmentsFor st'.store tid) = true) :
    ∀ (deliver' : Nat → Bool) (uid' : Nat),
      (complete_task deliver' st' tid uid').notified = [] := by
  intro deliver' uid'
  cases hfa : findAssignment st'.store tid uid' with
  | none => simp [complete_task, hfa]
  | some a' =>
    have hmem : a' ∈ st'.store.assignments := List.mem_of_find?_eq_some hfa
    have hp := List.find?_some hfa
    have htid' : a'.task_id = tid := by
      obtain ⟨h1, h2⟩ : a'.task_id = tid ∧ a'.user_id = uid' := by simpa using hp
      exact h1
    have hin : a' ∈ assignmentsFor st'.store tid := by
      simp only [assignmentsFor, filterTask]
      exact List.mem_filter.mpr ⟨hmem, by simp [htid']⟩
    have hcomp : a'.status = Status.Completed := mem_status_of_allCompleted hall hin
    have hsb' : (a'.status != Status.Completed) = false := by simp [hcomp]
    simp [complete_task, hfa, hsb']

/-! ### Claim C4 -/

/-- Claim C4: every successful transition of an assignment into Completed
synchronously re-runs the completion evaluation in the same operation; when
the evaluation reports the task complete, the task's reminder job is removed
and one completion message is attempted for every rector (delivery failures
caught per recipient), and no later complete call for that task attempts
another notification; when the evaluation reports the task not complete, the
job registry is untouched and nobody is notified. -/
theorem C4_completion_side_effects (deliver : Nat → Bool) (st : SysState)
    (tid uid : Nat) (a : TaskAssignment) (T : Task)
    (ht : findTask st.store tid = some T)
    (ha : findAssignment st.store tid uid = some a)
    (hs : a.status ≠ Status.Completed) :
    (complete_task deliver st tid uid).outcome = CompleteOutcome.completedNow ∧
    (is_complete (assignmentsFor (complete_task deliver st tid uid).state.store tid) = true →
      hasJob (complete_task deliver st tid uid).state tid = false ∧
      (complete_task deliver st tid uid).notified = rectorIds st.store ∧
      (complete_task deliver st tid uid).delivered = (rectorIds st.store).filter deliver ∧
      ∀ (deliver' : Nat → Bool) (uid' : Nat),
        (complete_task deliver' (complete_task deliver st tid uid).state tid uid').notified
          = []) ∧
    (is_complete (assignmentsFor (complete_task deliver st tid uid).state.store tid) = false →
      (complete_task deliver st tid uid).state.jobs = st.jobs ∧
      (complete_task deliver st tid uid).notified = []) := by
  have hsb : (a.status != Status.Completed) = true := by simpa using hs
  obtain ⟨htid, huid⟩ : a.task_id = tid ∧ a.user_id = uid := by
    simpa using List.find?_some ha
  have hmem : a ∈ st.store.assignments := List.mem_of_find?_eq_some ha
  have hainf : a ∈ filterTask st.store.assignments tid := by
    simp only [filterTask]
    exact List.mem_filter.mpr ⟨hmem, by simp [htid]⟩
  have hupd : updAsg tid uid Status.Completed a = { a with status := Status.Completed } := by
    unfold updAsg
    simp [htid, huid]
  have hwitness : ({ a with status := Status.Completed } : TaskAssignment) ∈
      filterTask (setStatus st.store.assignments tid uid Status.Completed) tid := by
    rw [filterTask_setStatus, ← hupd]
    exact List.mem_map_of_mem _ hainf
  have hne : (filterTask (setStatus st.store.assignments tid uid Status.Completed) tid).isEmpty
      = false := by
    cases he : (filterTask (setStatus st.store.assignments tid uid Status.Completed) tid).isEmpty
    · rfl
    · rw [List.isEmpty_iff] at he
      rw [he] at hwitness
      cases hwitness
  simp only [complete_task, ha, hsb, if_true]
  cases hac : allCompleted (filterTask (setStatus st.store.assignments tid uid
      Status.Completed) tid) with
  | true =>
    rw [notify_of_allCompleted deliver
      { st with
        store := { st.store with
          assignments := setStatus st.store.assignments tid uid Status.Completed } } tid
      ht hne hac]
    refine ⟨trivial, ?_, ?_⟩
    · intro _
      refine ⟨?_, rfl, rfl, ?_⟩
      · show (removeJob st.jobs tid).any (fun j => j.task_id == tid) = false
        exact any_removeJob_self st.jobs tid
      · exact fun deliver' uid' => complete_task_no_renotify
          { st with
            store := { st.store with
              assignments := setStatus st.store.assignments tid uid Status.Completed },
            jobs := removeJob st.jobs tid } tid hac deliver' uid'
    · intro hfalse
      have hf' : is_complete
          (filterTask (setStatus st.store.assignments tid uid Status.Completed) tid)
          = false := hfalse
      have hct : is_complete
          (filterTask (setStatus st.store.assignments tid uid Status.Completed) tid)
          = true := by
        simp [is_complete, hne, hac]
      rw [hct] at hf'
      exact Bool.noConfusion hf'
  | false =>
    rw [notify_of_notAllCompleted deliver
      { st with
        store := { st.store with
          assignments := setStatus st.store.assignments tid uid Status.Completed } } tid
      ht hac]
    refine ⟨trivial, ?_, fun _ => ⟨rfl, rfl⟩⟩
    intro htrue
    have ht' : is_complete
        (filterTask (setStatus st.store.assignments tid uid Status.Completed) tid)
        = true := htrue
    have hcf : is_complete
        (filterTask (setStatus st.store.assignments tid uid Status.Completed) tid)
        = false := by
      simp [is_complete, hac]
    rw [hcf] at ht'
    exact Bool.noConfusion ht'

def c4S : SysState :=
  ⟨⟨[⟨1, "u", "n", "s", "p1", "staff"⟩, ⟨2, "v", "n", "s", "p2", "staff"⟩,
     ⟨10, "r", "n", "s", "p3", "rector"⟩],
    [⟨1, "t", "d", 0, 5⟩],
    [⟨1, 1, Status.Completed⟩, ⟨1, 2, Status.Accepted⟩]⟩, [⟨1, 5⟩]⟩

/-- Witness for C4_completion_side_effects: user 2 completes the last open
assignment of task 1; the evaluation reports the task complete, the job is
removed and rector 10 is notified exactly once. -/
theorem C4_completion_side_effects_witness :
    (complete_task (fun _ => true) c4S 1 2).outcome = CompleteOutcome.completedNow ∧
    is_complete (assignmentsFor (complete_task (fun _ => true) c4S 1 2).state.store 1) = true ∧
    hasJob (complete_task (fun _ => true) c4S 1 2).state 1 = false ∧
    (complete_task (fun _ => true) c4S 1 2).notified = rectorIds c4S.store ∧
    (complete_task (fun _ => false)
        (complete_task (fun _ => true) c4S 1 2).state 1 1).notified = [] := by
  have h := C4_completion_side_effects (fun _ => true) c4S 1 2 ⟨1, 2, Status.Accepted⟩
    ⟨1, "t", "d", 0, 5⟩ (by decide) (by decide) (by decide)
  have hc : is_complete (assignmentsFor (complete_task (fun _ => true) c4S 1 2).state.store 1)
      = true := by decide
  exact ⟨h.1, hc, (h.2.1 hc).1, (h.2.1 hc).2.1, (h.2.1 hc).2.2.2 (fun _ => false) 1⟩

end TaskBot
